import Mathlib

/-!
# Verification of the manifestor library

A shallow embedding of `src/lib.rs` of the `manifestor` crate.

JSON documents are modelled by the abstract syntax tree `Json` (the value
produced by `serde_json`'s front end from the input text); objects keep
their fields as an ordered association list, as in the input document.
The derived `serde` decoders for the schema structs are modelled field by
field, with `serde`'s semantics:

* a required field that is absent is a decode error;
* an `Option` field that is absent or `null` decodes to `none`;
* a known field that occurs twice in an object is a decode error
  (`duplicate field`);
* unknown fields are ignored.

Errors are `Except String`; the exact error strings are descriptive and
are not part of any verified property unless stated.
-/

namespace Manifestor

/-- JSON values, as produced by `serde_json` from the input text.
Objects are ordered association lists of key/value pairs. -/
inductive Json where
  | null : Json
  | bool (b : Bool) : Json
  | num (n : Int) : Json
  | str (s : String) : Json
  | arr (elems : List Json) : Json
  | obj (fields : List (String × Json)) : Json
deriving Repr

/-! ## The schema structs (`ConfigProperties` … `Root` in `src/lib.rs`) -/

structure ConfigProperties where
  uri : Option String
  exchange_name : Option String
  exchange : Option String
  currency : Option String
  instrument_kind : Option String
deriving Repr, DecidableEq

structure Config where
  name : String
  properties : Option ConfigProperties
deriving Repr, DecidableEq

structure Properties where
  image : String
  config : Option (List Config)
deriving Repr, DecidableEq

structure CapabilityComponent where
  name : String
  /-- serialized under the key `"type"` (serde rename). -/
  component_type : String
  properties : Option Properties
deriving Repr, DecidableEq

structure Annotations where
  description : String
  version : String
deriving Repr, DecidableEq

structure Metadata where
  name : String
  annotations : Annotations
deriving Repr, DecidableEq

structure Spec where
  components : List CapabilityComponent
deriving Repr, DecidableEq

structure Manifest where
  /-- serialized under the key `"apiVersion"` (serde rename). -/
  api_version : String
  kind : String
  metadata : Metadata
  spec : Spec
deriving Repr, DecidableEq

structure Manifests where
  /-- serialized under the key `"v0.0.1"` (serde rename). -/
  version : Manifest
deriving Repr, DecidableEq

structure Root where
  manifests : Manifests
  deployed_version : Option String
deriving Repr, DecidableEq

/-! ## Field access, mirroring serde's derived struct visitor -/

/-- Look a key up in an object's field list.  Exactly zero or one
occurrence is fine; two or more occurrences of a known key are a
`duplicate field` error, as in serde. -/
def getField (fields : List (String × Json)) (k : String) : Except String (Option Json) :=
  match fields.filter (fun p => p.1 == k) with
  | [] => .ok none
  | [p] => .ok (some p.2)
  | _ => .error ("duplicate field " ++ k)

/-- Decode a required struct field: absence is an error. -/
def decodeReq (dec : Json → Except String α) (fields : List (String × Json))
    (k : String) : Except String α :=
  match getField fields k with
  | .error e => .error e
  | .ok none => .error ("missing field " ++ k)
  | .ok (some v) => dec v

def Json.isNull : Json → Bool
  | .null => true
  | _ => false

/-- Decode an `Option` struct field: an absent or `null` field is `none`. -/
def decodeOpt (dec : Json → Except String α) (fields : List (String × Json))
    (k : String) : Except String (Option α) :=
  match getField fields k with
  | .error e => .error e
  | .ok none => .ok none
  | .ok (some v) => if v.isNull then .ok none else (dec v).map some

def decodeString : Json → Except String String
  | .str s => .ok s
  | _ => .error "invalid type: expected a string"

def decodeListAux (dec : Json → Except String α) : List Json → Except String (List α)
  | [] => .ok []
  | x :: xs =>
    match dec x with
    | .error e => .error e
    | .ok a =>
      match decodeListAux dec xs with
      | .error e => .error e
      | .ok as => .ok (a :: as)

def decodeList (dec : Json → Except String α) : Json → Except String (List α)
  | .arr elems => decodeListAux dec elems
  | _ => .error "invalid type: expected a sequence"

/-! ## Decoders, one per schema struct -/

def ConfigProperties.decode : Json → Except String ConfigProperties
  | .obj fields =>
    match decodeOpt decodeString fields "uri" with
    | .error e => .error e
    | .ok uri =>
      match decodeOpt decodeString fields "exchange_name" with
      | .error e => .error e
      | .ok exchange_name =>
        match decodeOpt decodeString fields "exchange" with
        | .error e => .error e
        | .ok exchange =>
          match decodeOpt decodeString fields "currency" with
          | .error e => .error e
          | .ok currency =>
            match decodeOpt decodeString fields "instrument_kind" with
            | .error e => .error e
            | .ok instrument_kind =>
              .ok ⟨uri, exchange_name, exchange, currency, instrument_kind⟩
  | _ => .error "invalid type: expected struct ConfigProperties"

def Config.decode : Json → Except String Config
  | .obj fields =>
    match decodeReq decodeString fields "name" with
    | .error e => .error e
    | .ok name =>
      match decodeOpt ConfigProperties.decode fields "properties" with
      | .error e => .error e
      | .ok properties => .ok ⟨name, properties⟩
  | _ => .error "invalid type: expected struct Config"

def Properties.decode : Json → Except String Properties
  | .obj fields =>
    match decodeReq decodeString fields "image" with
    | .error e => .error e
    | .ok image =>
      match decodeOpt (decodeList Config.decode) fields "config" with
      | .error e => .error e
      | .ok config => .ok ⟨image, config⟩
  | _ => .error "invalid type: expected struct Properties"

def CapabilityComponent.decode : Json → Except String CapabilityComponent
  | .obj fields =>
    match decodeReq decodeString fields "name" with
    | .error e => .error e
    | .ok name =>
      match decodeReq decodeString fields "type" with
      | .error e => .error e
      | .ok component_type =>
        match decodeOpt Properties.decode fields "properties" with
        | .error e => .error e
        | .ok properties => .ok ⟨name, component_type, properties⟩
  | _ => .error "invalid type: expected struct CapabilityComponent"

def Annotations.decode : Json → Except String Annotations
  | .obj fields =>
    match decodeReq decodeString fields "description" with
    | .error e => .error e
    | .ok description =>
      match decodeReq decodeString fields "version" with
      | .error e => .error e
      | .ok version => .ok ⟨description, version⟩
  | _ => .error "invalid type: expected struct Annotations"

def Metadata.decode : Json → Except String Metadata
  | .obj fields =>
    match decodeReq decodeString fields "name" with
    | .error e => .error e
    | .ok name =>
      match decodeReq Annotations.decode fields "annotations" with
      | .error e => .error e
      | .ok annotations => .ok ⟨name, annotations⟩
  | _ => .error "invalid type: expected struct Metadata"

def Spec.decode : Json → Except String Spec
  | .obj fields =>
    match decodeReq (decodeList CapabilityComponent.decode) fields "components" with
    | .error e => .error e
    | .ok components => .ok ⟨components⟩
  | _ => .error "invalid type: expected struct Spec"

def Manifest.decode : Json → Except String Manifest
  | .obj fields =>
    match decodeReq decodeString fields "apiVersion" with
    | .error e => .error e
    | .ok api_version =>
      match decodeReq decodeString fields "kind" with
      | .error e => .error e
      | .ok kind =>
        match decodeReq Metadata.decode fields "metadata" with
        | .error e => .error e
        | .ok metadata =>
          match decodeReq Spec.decode fields "spec" with
          | .error e => .error e
          | .ok spec => .ok ⟨api_version, kind, metadata, spec⟩
  | _ => .error "invalid type: expected struct Manifest"

def Manifests.decode : Json → Except String Manifests
  | .obj fields =>
    match decodeReq Manifest.decode fields "v0.0.1" with
    | .error e => .error e
    | .ok version => .ok ⟨version⟩
  | _ => .error "invalid type: expected struct Manifests"

def Root.decode : Json → Except String Root
  | .obj fields =>
    match decodeReq Manifests.decode fields "manifests" with
    | .error e => .error e
    | .ok manifests =>
      match decodeOpt decodeString fields "deployed_version" with
      | .error e => .error e
      | .ok deployed_version => .ok ⟨manifests, deployed_version⟩
  | _ => .error "invalid type: expected struct Root"

/-! ## Encoders (serde `Serialize`: fields in declaration order,
`Option` `none` as `null`) -/

def encodeOpt (enc : α → Json) : Option α → Json
  | none => .null
  | some a => enc a

def encodeOptString : Option String → Json :=
  encodeOpt Json.str

def ConfigProperties.encode (c : ConfigProperties) : Json :=
  .obj [("uri", encodeOptString c.uri),
        ("exchange_name", encodeOptString c.exchange_name),
        ("exchange", encodeOptString c.exchange),
        ("currency", encodeOptString c.currency),
        ("instrument_kind", encodeOptString c.instrument_kind)]

def Config.encode (c : Config) : Json :=
  .obj [("name", .str c.name),
        ("properties", encodeOpt ConfigProperties.encode c.properties)]

def Properties.encode (p : Properties) : Json :=
  .obj [("image", .str p.image),
        ("config", encodeOpt (fun l => .arr (l.map Config.encode)) p.config)]

def CapabilityComponent.encode (c : CapabilityComponent) : Json :=
  .obj [("name", .str c.name),
        ("type", .str c.component_type),
        ("properties", encodeOpt Properties.encode c.properties)]

def Annotations.encode (a : Annotations) : Json :=
  .obj [("description", .str a.description),
        ("version", .str a.version)]

def Metadata.encode (m : Metadata) : Json :=
  .obj [("name", .str m.name),
        ("annotations", m.annotations.encode)]

def Spec.encode (s : Spec) : Json :=
  .obj [("components", .arr (s.components.map CapabilityComponent.encode))]

def Manifest.encode (m : Manifest) : Json :=
  .obj [("apiVersion", .str m.api_version),
        ("kind", .str m.kind),
        ("metadata", m.metadata.encode),
        ("spec", m.spec.encode)]

def Manifests.encode (m : Manifests) : Json :=
  .obj [("v0.0.1", m.version.encode)]

def Root.encode (r : Root) : Json :=
  .obj [("manifests", r.manifests.encode),
        ("deployed_version", encodeOptString r.deployed_version)]

/-! ## `extract_capability_components` -/

/-- The filter predicate of `extract_capability_components`:
`comp.component_type == "capability" && comp.properties.as_ref().map_or(false, |p| p.config.is_some())`. -/
def isCapabilityWithConfig (comp : CapabilityComponent) : Bool :=
  comp.component_type == "capability" &&
    (match comp.properties with
     | some p => p.config.isSome
     | none => false)

/-- `extract_capability_components` from `src/lib.rs`, acting on the JSON
value obtained from the input text.  It decodes the text into a `Root`
and keeps, in order, the components of type `"capability"` whose
`properties.config` is present. -/
def extract_capability_components (config : Json) :
    Except String (List CapabilityComponent) :=
  match Root.decode config with
  | .error e => .error e
  | .ok parsed =>
    .ok (parsed.manifests.version.spec.components.filter isCapabilityWithConfig)

/-! ## Parsing a JSON array of strings
(`serde_json::from_slice::<Vec<String>>` in `get_manifests`)

The recursive loops carry a fuel parameter; the callers pass one more
than the length of the remaining input, which every loop strictly
consumes, so the `recursion limit exceeded` branch is unreachable. -/

def isJsonWs (c : Char) : Bool :=
  c = ' ' || c = '\t' || c = '\n' || c = '\r'

def skipWs : List Char → List Char
  | [] => []
  | c :: cs => if isJsonWs c then skipWs cs else c :: cs

def hexVal (c : Char) : Option Nat :=
  if '0' ≤ c ∧ c ≤ '9' then some (c.toNat - '0'.toNat)
  else if 'a' ≤ c ∧ c ≤ 'f' then some (c.toNat - 'a'.toNat + 10)
  else if 'A' ≤ c ∧ c ≤ 'F' then some (c.toNat - 'A'.toNat + 10)
  else none

def hex4 : List Char → Option (Nat × List Char)
  | a :: b :: c :: d :: rest =>
    match hexVal a, hexVal b, hexVal c, hexVal d with
    | some x, some y, some z, some w => some (((x * 16 + y) * 16 + z) * 16 + w, rest)
    | _, _, _, _ => none
  | _ => none

/-- Scan the characters of a JSON string literal (after the opening
quote), handling the JSON escapes, up to the closing quote.  Returns the
string and the remaining input. -/
def parseStringChars (fuel : Nat) (acc : List Char) (cs : List Char) :
    Except String (String × List Char) :=
  match fuel with
  | 0 => .error "recursion limit exceeded"
  | fuel + 1 =>
    match cs with
    | [] => .error "unexpected end of input while parsing a string"
    | c :: cs =>
      if c = '"' then .ok (⟨acc.reverse⟩, cs)
      else if c = '\\' then
        match cs with
        | [] => .error "unexpected end of input in escape"
        | e :: cs =>
          if e = '"' then parseStringChars fuel ('"' :: acc) cs
          else if e = '\\' then parseStringChars fuel ('\\' :: acc) cs
          else if e = '/' then parseStringChars fuel ('/' :: acc) cs
          else if e = 'b' then parseStringChars fuel ('\x08' :: acc) cs
          else if e = 'f' then parseStringChars fuel ('\x0c' :: acc) cs
          else if e = 'n' then parseStringChars fuel ('\n' :: acc) cs
          else if e = 'r' then parseStringChars fuel ('\r' :: acc) cs
          else if e = 't' then parseStringChars fuel ('\t' :: acc) cs
          else if e = 'u' then
            match hex4 cs with
            | none => .error "invalid hex escape"
            | some (n, rest) =>
              if 0xD800 ≤ n ∧ n ≤ 0xDBFF then
                match rest with
                | '\\' :: 'u' :: rest' =>
                  match hex4 rest' with
                  | some (m, rest'') =>
                    if 0xDC00 ≤ m ∧ m ≤ 0xDFFF then
                      parseStringChars fuel
                        (Char.ofNat (0x10000 + (n - 0xD800) * 0x400 + (m - 0xDC00)) :: acc)
                        rest''
                    else .error "unexpected surrogate pair"
                  | none => .error "invalid hex escape"
                | _ => .error "unexpected end of hex escape"
              else if 0xDC00 ≤ n ∧ n ≤ 0xDFFF then .error "lone surrogate"
              else parseStringChars fuel (Char.ofNat n :: acc) rest
          else .error "invalid escape"
      else if c.toNat < 0x20 then .error "control character in string"
      else parseStringChars fuel (c :: acc) cs

/-- Parse a non-empty comma-separated sequence of string literals up to
the closing bracket.  The input starts at the first element (whitespace
already skipped). -/
def parseElems (fuel : Nat) (cs : List Char) : Except String (List String × List Char) :=
  match fuel with
  | 0 => .error "recursion limit exceeded"
  | fuel + 1 =>
    match cs with
    | '"' :: rest =>
      match parseStringChars (rest.length + 1) [] rest with
      | .error e => .error e
      | .ok (s, rest') =>
        match skipWs rest' with
        | ',' :: more =>
          match parseElems fuel (skipWs more) with
          | .error e => .error e
          | .ok (tail, r) => .ok (s :: tail, r)
        | ']' :: more => .ok ([s], more)
        | _ => .error "expected comma or end of sequence"
    | _ => .error "invalid type: expected a string"

/-- `serde_json::from_slice::<Vec<String>>`: parse the full input as a
JSON array of strings, rejecting trailing non-whitespace. -/
def parseStringList (s : String) : Except String (List String) :=
  match skipWs s.data with
  | '[' :: rest =>
    match skipWs rest with
    | ']' :: tail =>
      if (skipWs tail).isEmpty then .ok [] else .error "trailing characters"
    | body =>
      match parseElems (body.length + 1) body with
      | .error e => .error e
      | .ok (elems, tail) =>
        if (skipWs tail).isEmpty then .ok elems else .error "trailing characters"
  | _ => .error "invalid type: expected a sequence"

/-! ## `get_manifests` -/

/-- A record of one call to the injected accessor capability. -/
structure GetCall where
  bucket : String
  key : String
deriving Repr, DecidableEq

/-- The accessor type `GetFn`
(`fn(&str, &str) -> Result<Option<Vec<u8>>, Box<dyn Error>>`); the byte
vectors it yields are modelled as UTF-8 strings, so the
`String::from_utf8` conversion in `get_manifests` is the identity. -/
def GetFn : Type := String → String → Except String (Option String)

/-- `get_manifests` from `src/lib.rs`, instrumented: alongside the
result it returns the sequence of accessor calls performed, in order. -/
def get_manifestsT (get_fn : GetFn)
    (app_name wadm_manifest wadm_default_manifest : String) :
    Except String String × List GetCall :=
  let call1 : GetCall := ⟨wadm_manifest, wadm_default_manifest⟩
  match get_fn wadm_manifest wadm_default_manifest with
  | .error e => (.error e, [call1])
  | .ok none => (.error "Failed to get app name from default manifest", [call1])
  | .ok (some appsBytes) =>
    match parseStringList appsBytes with
    | .error e =>
      (.error ("Failed to parse app names from default manifest: " ++ e), [call1])
    | .ok apps =>
      match apps.find? (fun app => app == app_name) with
      | none => (.error ("App " ++ app_name ++ " not found"), [call1])
      | some app =>
        let app_key := wadm_default_manifest ++ "-" ++ app
        match get_fn wadm_manifest app_key with
        | .error e =>
          (.error ("Failed to get config for app: " ++ e),
           [call1, ⟨wadm_manifest, app_key⟩])
        | .ok none =>
          (.error "Failed to get config for app: Config not found",
           [call1, ⟨wadm_manifest, app_key⟩])
        | .ok (some config) => (.ok config, [call1, ⟨wadm_manifest, app_key⟩])

/-- `get_manifests` from `src/lib.rs` (the returned value alone). -/
def get_manifests (get_fn : GetFn)
    (app_name wadm_manifest wadm_default_manifest : String) :
    Except String String :=
  (get_manifestsT get_fn app_name wadm_manifest wadm_default_manifest).1

deriving instance DecidableEq for Except

/-! ## Concrete fixtures (mirroring the crate's test data) -/

def capFull : CapabilityComponent :=
  ⟨"cap-full", "capability",
   some ⟨"img1", some [⟨"c1",
     some ⟨some "u", some "jabratech", some "deribit", some "btc", some "future"⟩⟩]⟩⟩

def capEmpty : CapabilityComponent :=
  ⟨"cap-empty", "capability", some ⟨"img2", some []⟩⟩

def capNoConfig : CapabilityComponent :=
  ⟨"cap-noconfig", "capability", some ⟨"img3", none⟩⟩

def plainComp : CapabilityComponent :=
  ⟨"plain", "component", some ⟨"img4", none⟩⟩

def sampleRoot : Root :=
  ⟨⟨⟨"core.oam.dev/v1beta1", "Application", ⟨"mds", ⟨"demo", "v0.0.1"⟩⟩,
     ⟨[capFull, capEmpty, capNoConfig, plainComp]⟩⟩⟩, none⟩

/-- The sample document, as the JSON value of its input text. -/
def sampleDoc : Json :=
  .obj [("manifests", .obj [("v0.0.1", .obj
    [("apiVersion", .str "core.oam.dev/v1beta1"),
     ("kind", .str "Application"),
     ("metadata", .obj [("name", .str "mds"),
        ("annotations", .obj [("description", .str "demo"),
                              ("version", .str "v0.0.1")])]),
     ("spec", .obj [("components", .arr
       [.obj [("name", .str "cap-full"), ("type", .str "capability"),
              ("properties", .obj [("image", .str "img1"),
                 ("config", .arr [.obj [("name", .str "c1"),
                    ("properties", .obj
                      [("uri", .str "u"),
                       ("exchange_name", .str "jabratech"),
                       ("exchange", .str "deribit"),
                       ("currency", .str "btc"),
                       ("instrument_kind", .str "future")])]])])],
        .obj [("name", .str "cap-empty"), ("type", .str "capability"),
              ("properties", .obj [("image", .str "img2"),
                                   ("config", .arr [])])],
        .obj [("name", .str "cap-noconfig"), ("type", .str "capability"),
              ("properties", .obj [("image", .str "img3")])],
        .obj [("name", .str "plain"), ("type", .str "component"),
              ("properties", .obj [("image", .str "img4")])]])])])]),
   ("deployed_version", .null)]

/-- A minimal well-formed manifest value (empty component list). -/
def minimalManifestJson : Json :=
  .obj [("apiVersion", .str "a"), ("kind", .str "k"),
        ("metadata", .obj [("name", .str "n"),
           ("annotations", .obj [("description", .str "d"),
                                 ("version", .str "v")])]),
        ("spec", .obj [("components", .arr [])])]

/-- A document whose `manifests` mapping carries two distinct version
keys, `"v0.0.1"` (well-formed) and `"v0.0.2"`. -/
def multiVersionDoc : Json :=
  .obj [("manifests", .obj [("v0.0.1", minimalManifestJson),
                            ("v0.0.2", .null)])]

/-- A document whose single component is not of type `"capability"` and
is malformed: its `properties` object lacks the required `image`. -/
def badComponentDoc : Json :=
  .obj [("manifests", .obj [("v0.0.1",
    .obj [("apiVersion", .str "a"), ("kind", .str "k"),
          ("metadata", .obj [("name", .str "n"),
             ("annotations", .obj [("description", .str "d"),
                                   ("version", .str "v")])]),
          ("spec", .obj [("components", .arr
            [.obj [("name", .str "plain"), ("type", .str "component"),
                   ("properties", .obj [])]])])])])]

/-- The accessor of the resolver scenario in the specification: the
index `["mds", "another-app"]` is stored under key `"default"` and the
configuration text under key `"default-mds"`. -/
def specMock (bucket : String) : GetFn := fun b k =>
  if b == bucket && k == "default" then .ok (some "[\"mds\", \"another-app\"]")
  else if b == bucket && k == "default-mds" then
    .ok (some "\x7b\"config\":\"value\"\x7d")
  else .error "Key not found"

/-- The `Root` value of `minimalManifestJson` wrapped in a document. -/
def minimalRoot : Root :=
  ⟨⟨⟨"a", "k", ⟨"n", ⟨"d", "v"⟩⟩, ⟨[]⟩⟩⟩, none⟩

/-! ## Unknown extra fields -/

/-- Every object key consumed by some decoder of the schema. -/
def schemaKeys : List String :=
  ["uri", "exchange_name", "exchange", "currency", "instrument_kind",
   "name", "properties", "image", "config", "type",
   "description", "version", "annotations", "components",
   "apiVersion", "kind", "metadata", "spec", "v0.0.1",
   "manifests", "deployed_version"]

/-- `InsertField k v j j'` holds when `j'` is `j` with one extra field
`(k, v)` inserted at some object position anywhere in the document. -/
inductive InsertField (k : String) (v : Json) : Json → Json → Prop where
  | here (pre post : List (String × Json)) :
      InsertField k v (.obj (pre ++ post)) (.obj (pre ++ (k, v) :: post))
  | inObj (pre post : List (String × Json)) (key : String) (w w' : Json) :
      InsertField k v w w' →
      InsertField k v (.obj (pre ++ (key, w) :: post))
                      (.obj (pre ++ (key, w') :: post))
  | inArr (pre post : List Json) (w w' : Json) :
      InsertField k v w w' →
      InsertField k v (.arr (pre ++ w :: post)) (.arr (pre ++ w' :: post))

/-- A decoder yields the same successful result on `j'` as on `j`. -/
def PreservesDec (dec : Json → Except String α) (j j' : Json) : Prop :=
  ∀ a, dec j = .ok a → dec j' = .ok a

/-- All schema decoders preserve their successes from `j` to `j'`. -/
def PreservesAll (j j' : Json) : Prop :=
  PreservesDec ConfigProperties.decode j j' ∧
  PreservesDec Config.decode j j' ∧
  PreservesDec (decodeList Config.decode) j j' ∧
  PreservesDec Properties.decode j j' ∧
  PreservesDec CapabilityComponent.decode j j' ∧
  PreservesDec (decodeList CapabilityComponent.decode) j j' ∧
  PreservesDec Annotations.decode j j' ∧
  PreservesDec Metadata.decode j j' ∧
  PreservesDec Spec.decode j j' ∧
  PreservesDec Manifest.decode j j' ∧
  PreservesDec Manifests.decode j j' ∧
  PreservesDec Root.decode j j'

/-! ## Basic facts about the extractor -/

/-- On any successfully decoded document the extractor returns exactly
the filtered component list. -/
theorem extract_ok_of_decode (j : Json) (root : Root)
    (h : Root.decode j = .ok root) :
    extract_capability_components j =
      .ok ((root.manifests.version.spec.components).filter isCapabilityWithConfig) := by
  simp [extract_capability_components, h]

/-- C1: for every input text that decodes to a valid `Root`,
`extract_capability_components` returns `Ok` with exactly the components
satisfying the capability-with-config condition, in the original
document order, each structurally equal to its source component (the
result is the `filter` of the source sequence, hence a sublist of it,
of length the number of components satisfying the condition; no sorting
or deduplication is performed). -/
theorem extract_returns_filtered_components (j : Json) (root : Root)
    (h : Root.decode j = .ok root) :
    extract_capability_components j =
      .ok ((root.manifests.version.spec.components).filter isCapabilityWithConfig) ∧
    ((root.manifests.version.spec.components).filter isCapabilityWithConfig).Sublist
      (root.manifests.version.spec.components) ∧
    ((root.manifests.version.spec.components).filter isCapabilityWithConfig).length =
      (root.manifests.version.spec.components).countP isCapabilityWithConfig :=
  ⟨extract_ok_of_decode j root h, List.filter_sublist _,
   (List.countP_eq_length_filter _ _).symm⟩

/-- Witness for C1 at the sample document. -/
theorem extract_returns_filtered_components_witness :
    extract_capability_components sampleDoc =
      .ok ((sampleRoot.manifests.version.spec.components).filter isCapabilityWithConfig) ∧
    (sampleRoot.manifests.version.spec.components).filter isCapabilityWithConfig =
      [capFull, capEmpty] :=
  ⟨(extract_returns_filtered_components sampleDoc sampleRoot (by decide)).1, by decide⟩

/-- C2: a component of type `"capability"` whose `properties` are
present but whose `config` is absent is excluded from the result, while
one whose `config` is present but an empty sequence is included:
presence of the `config` field, not non-emptiness, is the filter
condition. -/
theorem config_presence_is_filter_condition (j : Json) (root : Root)
    (l : List CapabilityComponent)
    (hdec : Root.decode j = .ok root)
    (hex : extract_capability_components j = .ok l) :
    (∀ nm img, CapabilityComponent.mk nm "capability" (some ⟨img, none⟩) ∉ l) ∧
    (∀ nm img,
      CapabilityComponent.mk nm "capability" (some ⟨img, some []⟩) ∈
        root.manifests.version.spec.components →
      CapabilityComponent.mk nm "capability" (some ⟨img, some []⟩) ∈ l) := by
  have hl : l = (root.manifests.version.spec.components).filter isCapabilityWithConfig := by
    have h2 := extract_ok_of_decode j root hdec
    rw [hex] at h2
    exact Except.ok.inj h2
  subst hl
  constructor
  · intro nm img hmem
    have h3 := (List.mem_filter.mp hmem).2
    simp [isCapabilityWithConfig] at h3
  · intro nm img hmem
    exact List.mem_filter.mpr ⟨hmem, by simp [isCapabilityWithConfig]⟩

/-- Witness for C2 at the sample document: the capability component with
empty config list is included, the one with absent config is not. -/
theorem config_presence_is_filter_condition_witness :
    CapabilityComponent.mk "cap-empty" "capability" (some ⟨"img2", some []⟩) ∈
      ([capFull, capEmpty] : List CapabilityComponent) ∧
    CapabilityComponent.mk "cap-noconfig" "capability" (some ⟨"img3", none⟩) ∉
      ([capFull, capEmpty] : List CapabilityComponent) :=
  ⟨(config_presence_is_filter_condition sampleDoc sampleRoot [capFull, capEmpty]
      (by decide) (by decide)).2 "cap-empty" "img2" (by decide),
   (config_presence_is_filter_condition sampleDoc sampleRoot [capFull, capEmpty]
      (by decide) (by decide)).1 "cap-noconfig" "img3"⟩

/-- If any element of a sequence fails to decode, decoding the whole
sequence fails (with the error of the first failing element). -/
theorem decodeListAux_error_of_mem (dec : Json → Except String α) :
    ∀ (comps : List Json) (x : Json) (e : String), x ∈ comps → dec x = .error e →
      ∃ e', decodeListAux dec comps = .error e' := by
  intro comps
  induction comps with
  | nil => intro x e hx; cases hx
  | cons y ys ih =>
    intro x e hx hdx
    cases hd : dec y with
    | error e0 => exact ⟨e0, by simp [decodeListAux, hd]⟩
    | ok a =>
      rcases List.mem_cons.mp hx with rfl | hx'
      · rw [hd] at hdx; cases hdx
      · obtain ⟨e', he'⟩ := ih x e hx' hdx
        exact ⟨e', by simp [decodeListAux, hd, he']⟩

/-- C10: `extract_capability_components` is all-or-nothing: every decode
error of the document is returned as the result (no partial component
list), and a single structurally malformed component — whatever its
type — makes the decode of the whole component sequence fail.  (The
embedding is a total function, so no input can make it panic.) -/
theorem extract_all_or_nothing :
    (∀ j e, Root.decode j = .error e →
       extract_capability_components j = .error e) ∧
    (∀ (comps : List Json) (x : Json) (e : String), x ∈ comps →
       CapabilityComponent.decode x = .error e →
       ∃ e', decodeListAux CapabilityComponent.decode comps = .error e') :=
  ⟨fun j e h => by simp [extract_capability_components, h],
   decodeListAux_error_of_mem CapabilityComponent.decode⟩

/-- Witness for C10 at a document whose sole component is a
non-capability component whose `properties` lack the required `image`. -/
theorem extract_all_or_nothing_witness :
    extract_capability_components badComponentDoc = .error "missing field image" ∧
    ∃ e', decodeListAux CapabilityComponent.decode
      [.obj [("name", .str "plain"), ("type", .str "component"),
             ("properties", .obj [])]] = .error e' :=
  ⟨extract_all_or_nothing.1 badComponentDoc "missing field image" (by decide),
   extract_all_or_nothing.2 _ (.obj [("name", .str "plain"), ("type", .str "component"),
             ("properties", .obj [])]) "missing field image"
     (List.mem_singleton_self _) (by decide)⟩

/-! ## Facts about the resolver -/

/-- C5: when the index lookup succeeds and decodes to a list of
application names that does not contain `app_name` (exact, case
sensitive), `get_manifests` fails with the error message exactly
`App (app_name) not found`, and the accessor is called exactly once
(never a second time). -/
theorem app_not_found_error (get_fn : GetFn)
    (app_name bucket index_key bytes : String) (apps : List String)
    (h1 : get_fn bucket index_key = .ok (some bytes))
    (h2 : parseStringList bytes = .ok apps)
    (h3 : app_name ∉ apps) :
    get_manifestsT get_fn app_name bucket index_key =
      (.error ("App " ++ app_name ++ " not found"), [⟨bucket, index_key⟩]) := by
  have hfind : apps.find? (fun app => app == app_name) = none := by
    rw [List.find?_eq_none]
    intro x hx
    simp only [beq_iff_eq]
    exact fun hxx => h3 (hxx ▸ hx)
  simp [get_manifestsT, h1, h2, hfind]

/-- Witness for C5: the spec's resolver scenario with `"missing-app"`. -/
theorem app_not_found_error_witness :
    get_manifestsT (specMock "wadm_manifests") "missing-app" "wadm_manifests" "default" =
      (.error ("App " ++ "missing-app" ++ " not found"),
       [⟨"wadm_manifests", "default"⟩]) :=
  app_not_found_error (specMock "wadm_manifests") "missing-app" "wadm_manifests"
    "default" "[\"mds\", \"another-app\"]" ["mds", "another-app"]
    (by decide) (by decide) (by decide)

/-- C7 counterexample: when the first (index) accessor lookup fails, the
failure is propagated verbatim — the result error is exactly the
accessor's own message, and the stage-specific text
`failed to retrieve index` appears nowhere in it. -/
theorem index_failure_unwrapped_cex :
    get_manifestsT (fun _ _ => .error "boom") "app" "bucket" "idx" =
      (.error "boom", [⟨"bucket", "idx"⟩]) ∧
    ¬ "failed to retrieve index".data <:+: "boom".data := by
  exact ⟨rfl, by decide⟩

/-- C7 amended: a failure of the first (index) accessor lookup is
propagated immediately and verbatim (not wrapped in any stage-specific
message), and no retry is performed: the accessor is called exactly
once. -/
theorem index_failure_propagated (get_fn : GetFn)
    (app_name bucket index_key e : String)
    (h : get_fn bucket index_key = .error e) :
    get_manifestsT get_fn app_name bucket index_key =
      (.error e, [⟨bucket, index_key⟩]) := by
  simp [get_manifestsT, h]

/-- Witness for the amended C7. -/
theorem index_failure_propagated_witness :
    get_manifestsT (fun _ _ => .error "boom") "app" "bucket" "idx" =
      (.error "boom", [⟨"bucket", "idx"⟩]) :=
  index_failure_propagated (fun _ _ => .error "boom") "app" "bucket" "idx" "boom" rfl

/-- C9: the accessor is invoked at most twice, strictly sequentially: a
second invocation happens only when the first returned present bytes
that decoded to a name list containing `app_name`, and the second call
is in the same bucket with the key derived from the index key and the
matched name. -/
theorem accessor_at_most_twice (get_fn : GetFn)
    (app_name bucket index_key : String) :
    (get_manifestsT get_fn app_name bucket index_key).2.length ≤ 2 ∧
    ((get_manifestsT get_fn app_name bucket index_key).2.length = 2 →
      ∃ bytes apps,
        get_fn bucket index_key = .ok (some bytes) ∧
        parseStringList bytes = .ok apps ∧
        app_name ∈ apps ∧
        (get_manifestsT get_fn app_name bucket index_key).2 =
          [⟨bucket, index_key⟩, ⟨bucket, index_key ++ "-" ++ app_name⟩]) := by
  cases h1 : get_fn bucket index_key with
  | error e => simp [get_manifestsT, h1]
  | ok ob =>
    cases ob with
    | none => simp [get_manifestsT, h1]
    | some bytes =>
      cases h2 : parseStringList bytes with
      | error e => simp [get_manifestsT, h1, h2]
      | ok apps =>
        cases h3 : apps.find? (fun app => app == app_name) with
        | none => simp [get_manifestsT, h1, h2, h3]
        | some app =>
          have happ : app = app_name := by
            have h4 := List.find?_some h3
            simpa [beq_iff_eq] using h4
          subst happ
          have hmem : app ∈ apps := List.mem_of_find?_eq_some h3
          cases h5 : get_fn bucket (index_key ++ "-" ++ app) with
          | error e =>
            refine ⟨by simp [get_manifestsT, h1, h2, h3, h5], fun _ => ?_⟩
            exact ⟨bytes, apps, rfl, h2, hmem, by simp [get_manifestsT, h1, h2, h3, h5]⟩
          | ok oc =>
            cases oc with
            | none =>
              refine ⟨by simp [get_manifestsT, h1, h2, h3, h5], fun _ => ?_⟩
              exact ⟨bytes, apps, rfl, h2, hmem, by simp [get_manifestsT, h1, h2, h3, h5]⟩
            | some config =>
              refine ⟨by simp [get_manifestsT, h1, h2, h3, h5], fun _ => ?_⟩
              exact ⟨bytes, apps, rfl, h2, hmem, by simp [get_manifestsT, h1, h2, h3, h5]⟩

/-- Witness for C9 at the spec's resolver scenario (both calls happen). -/
theorem accessor_at_most_twice_witness :
    (get_manifestsT (specMock "b") "mds" "b" "default").2.length ≤ 2 ∧
    (get_manifestsT (specMock "b") "mds" "b" "default").2 =
      [⟨"b", "default"⟩, ⟨"b", "default-mds"⟩] := by
  refine ⟨(accessor_at_most_twice (specMock "b") "mds" "b" "default").1, ?_⟩
  obtain ⟨bytes, apps, -, -, -, htr⟩ :=
    (accessor_at_most_twice (specMock "b") "mds" "b" "default").2 (by decide)
  rw [htr]
  rfl

/-! ## Re-encoding round-trips -/

theorem decodeListAux_roundtrip (dec : Json → Except String α) (enc : α → Json)
    (h : ∀ a, dec (enc a) = .ok a) :
    ∀ l : List α, decodeListAux dec (l.map enc) = .ok l := by
  intro l
  induction l with
  | nil => rfl
  | cons x xs ih => simp [decodeListAux, h, ih]

theorem configProperties_isNull_encode (c : ConfigProperties) :
    c.encode.isNull = false := rfl

theorem configProperties_decode_encode (c : ConfigProperties) :
    ConfigProperties.decode c.encode = .ok c := by
  obtain ⟨u, en, ex, cu, ik⟩ := c
  cases u <;> cases en <;> cases ex <;> cases cu <;> cases ik <;>
    simp [ConfigProperties.encode, ConfigProperties.decode, decodeOpt, getField,
          encodeOptString, encodeOpt, decodeString, Json.isNull, Except.map]

theorem config_isNull_encode (c : Config) : c.encode.isNull = false := rfl

theorem config_decode_encode (c : Config) : Config.decode c.encode = .ok c := by
  obtain ⟨n, p⟩ := c
  cases p with
  | none =>
    simp [Config.encode, Config.decode, decodeReq, decodeOpt, getField,
          decodeString, encodeOpt, Json.isNull]
  | some cp =>
    simp [Config.encode, Config.decode, decodeReq, decodeOpt, getField,
          decodeString, encodeOpt, configProperties_isNull_encode,
          configProperties_decode_encode, Except.map]

theorem decodeList_config_encode (l : List Config) :
    decodeList Config.decode (.arr (l.map Config.encode)) = .ok l := by
  simp only [decodeList]
  exact decodeListAux_roundtrip Config.decode Config.encode config_decode_encode l

theorem properties_isNull_encode (p : Properties) : p.encode.isNull = false := rfl

theorem properties_decode_encode (p : Properties) :
    Properties.decode p.encode = .ok p := by
  obtain ⟨img, cfg⟩ := p
  cases cfg with
  | none =>
    simp [Properties.encode, Properties.decode, decodeReq, decodeOpt, getField,
          decodeString, encodeOpt, Json.isNull]
  | some l =>
    simp [Properties.encode, Properties.decode, decodeReq, decodeOpt, getField,
          decodeString, encodeOpt, Json.isNull, decodeList_config_encode, Except.map]

theorem capabilityComponent_isNull_encode (c : CapabilityComponent) :
    c.encode.isNull = false := rfl

theorem capabilityComponent_decode_encode (c : CapabilityComponent) :
    CapabilityComponent.decode c.encode = .ok c := by
  obtain ⟨n, t, p⟩ := c
  cases p with
  | none =>
    simp [CapabilityComponent.encode, CapabilityComponent.decode, decodeReq,
          decodeOpt, getField, decodeString, encodeOpt, Json.isNull]
  | some props =>
    simp [CapabilityComponent.encode, CapabilityComponent.decode, decodeReq,
          decodeOpt, getField, decodeString, encodeOpt,
          properties_isNull_encode, properties_decode_encode, Except.map]

theorem decodeList_component_encode (l : List CapabilityComponent) :
    decodeList CapabilityComponent.decode (.arr (l.map CapabilityComponent.encode)) =
      .ok l := by
  simp only [decodeList]
  exact decodeListAux_roundtrip CapabilityComponent.decode CapabilityComponent.encode
    capabilityComponent_decode_encode l

theorem annotations_decode_encode (a : Annotations) :
    Annotations.decode a.encode = .ok a := by
  obtain ⟨d, v⟩ := a
  simp [Annotations.encode, Annotations.decode, decodeReq, getField, decodeString]

theorem metadata_decode_encode (m : Metadata) : Metadata.decode m.encode = .ok m := by
  obtain ⟨n, a⟩ := m
  simp [Metadata.encode, Metadata.decode, decodeReq, getField, decodeString,
        annotations_decode_encode]

theorem spec_decode_encode (s : Spec) : Spec.decode s.encode = .ok s := by
  obtain ⟨comps⟩ := s
  simp [Spec.encode, Spec.decode, decodeReq, getField, decodeList_component_encode]

theorem manifest_decode_encode (m : Manifest) : Manifest.decode m.encode = .ok m := by
  obtain ⟨av, k, md, sp⟩ := m
  simp [Manifest.encode, Manifest.decode, decodeReq, getField, decodeString,
        metadata_decode_encode, spec_decode_encode]

theorem manifests_decode_encode (m : Manifests) :
    Manifests.decode m.encode = .ok m := by
  obtain ⟨v⟩ := m
  simp [Manifests.encode, Manifests.decode, decodeReq, getField,
        manifest_decode_encode]

theorem root_decode_encode (r : Root) : Root.decode r.encode = .ok r := by
  obtain ⟨m, dv⟩ := r
  cases dv <;>
    simp [Root.encode, Root.decode, decodeReq, decodeOpt, getField, decodeString,
          encodeOptString, encodeOpt, Json.isNull, manifests_decode_encode, Except.map]

/-- C4: for every `Root` value that was itself produced by decoding some
text, re-encoding it and decoding the result yields the same `Root`
(round-trip stability up to structural equality). -/
theorem decode_encode_roundtrip (j : Json) (x : Root)
    (_h : Root.decode j = .ok x) :
    Root.decode (Root.encode x) = .ok x :=
  root_decode_encode x

/-- Witness for C4 at the sample document. -/
theorem decode_encode_roundtrip_witness :
    Root.decode (Root.encode sampleRoot) = .ok sampleRoot :=
  decode_encode_roundtrip sampleDoc sampleRoot (by decide)

/-! ## Version keys -/

/-- C3 counterexample: a document whose `manifests` mapping has the two
distinct version keys `"v0.0.1"` and `"v0.0.2"` decodes successfully —
the extra version key is ignored like any unknown field — so
`extract_capability_components` returns `Ok`, not a decode error. -/
theorem multi_version_keys_decode_cex :
    extract_capability_components multiVersionDoc = .ok [] := by decide

/-- C3 amended: decoding fails with a decode error (and the extractor
returns an error, no components) when the `manifests` mapping has no
`"v0.0.1"` key — in particular for any sole version key other than
`"v0.0.1"` — while a version key besides a single `"v0.0.1"` is ignored:
such a document decodes exactly as without the extra key. -/
theorem version_key_required (manFields : List (String × Json))
    (h : ∀ p ∈ manFields, p.1 ≠ "v0.0.1") :
    extract_capability_components (.obj [("manifests", .obj manFields)]) =
      .error "missing field v0.0.1" ∧
    (∀ m junk key, key ≠ "v0.0.1" →
       Manifests.decode (.obj [("v0.0.1", m), (key, junk)]) =
       Manifests.decode (.obj [("v0.0.1", m)])) := by
  constructor
  · have hfil : manFields.filter (fun p => p.1 == "v0.0.1") = [] := by
      rw [List.filter_eq_nil_iff]
      intro p hp
      simpa using h p hp
    simp [extract_capability_components, Root.decode, decodeReq, Manifests.decode,
          getField, hfil]
  · intro m junk key hk
    have hf : ((key, junk).1 == "v0.0.1") = false := by simpa using hk
    simp [Manifests.decode, decodeReq, getField, hf]

/-- Witness for the amended C3: the sole version key `"v0.0.2"` fails,
and an extra `"v0.0.2"` key besides `"v0.0.1"` is ignored. -/
theorem version_key_required_witness :
    extract_capability_components
        (.obj [("manifests", .obj [("v0.0.2", minimalManifestJson)])]) =
      .error "missing field v0.0.1" ∧
    Manifests.decode (.obj [("v0.0.1", minimalManifestJson), ("v0.0.2", .null)]) =
      Manifests.decode (.obj [("v0.0.1", minimalManifestJson)]) :=
  ⟨(version_key_required [("v0.0.2", minimalManifestJson)] (by decide)).1,
   (version_key_required [] (by simp)).2 minimalManifestJson .null "v0.0.2" (by decide)⟩

/-- C6: when the index lookup succeeds and the decoded name list
contains `app_name`, the second accessor call is in the same bucket
with the derived key `index_key ++ "-" ++ app_name` (plain
concatenation, no escaping), and bytes stored under the derived key are
returned verbatim, not decoded against the manifest schema; in
particular the spec's resolver scenario returns the stored text
literally. -/
theorem derived_key_second_call :
    (∀ (get_fn : GetFn) (app_name bucket index_key bytes cfg : String)
       (apps : List String),
       get_fn bucket index_key = .ok (some bytes) →
       parseStringList bytes = .ok apps →
       app_name ∈ apps →
       get_fn bucket (index_key ++ "-" ++ app_name) = .ok (some cfg) →
       get_manifestsT get_fn app_name bucket index_key =
         (.ok cfg, [⟨bucket, index_key⟩, ⟨bucket, index_key ++ "-" ++ app_name⟩])) ∧
    (∀ bucket, get_manifests (specMock bucket) "mds" bucket "default" =
       .ok "\x7b\"config\":\"value\"\x7d") := by
  have main : ∀ (get_fn : GetFn) (app_name bucket index_key bytes cfg : String)
      (apps : List String),
      get_fn bucket index_key = .ok (some bytes) →
      parseStringList bytes = .ok apps →
      app_name ∈ apps →
      get_fn bucket (index_key ++ "-" ++ app_name) = .ok (some cfg) →
      get_manifestsT get_fn app_name bucket index_key =
        (.ok cfg, [⟨bucket, index_key⟩, ⟨bucket, index_key ++ "-" ++ app_name⟩]) := by
    intro get_fn app_name bucket index_key bytes cfg apps h1 h2 hmem h4
    have hs : (apps.find? (fun app => app == app_name)).isSome :=
      List.find?_isSome.mpr ⟨app_name, hmem, by simp⟩
    obtain ⟨x, hx⟩ := Option.isSome_iff_exists.mp hs
    have hxa : x = app_name := by simpa using List.find?_some hx
    subst hxa
    simp [get_manifestsT, h1, h2, hx, h4]
  refine ⟨main, fun bucket => ?_⟩
  have h1 : specMock bucket bucket "default" =
      .ok (some "[\"mds\", \"another-app\"]") := by simp [specMock]
  have h4 : specMock bucket bucket ("default" ++ "-" ++ "mds") =
      .ok (some "\x7b\"config\":\"value\"\x7d") := by
    have : ("default" ++ "-" ++ "mds" : String) = "default-mds" := rfl
    rw [this]
    simp [specMock]
  have := main (specMock bucket) "mds" bucket "default" "[\"mds\", \"another-app\"]"
    "\x7b\"config\":\"value\"\x7d" ["mds", "another-app"] h1 (by decide) (by decide) h4
  simp [get_manifests, this]

/-- Witness for C6 at the spec's resolver scenario. -/
theorem derived_key_second_call_witness :
    get_manifestsT (specMock "wadm_manifests") "mds" "wadm_manifests" "default" =
      (.ok "\x7b\"config\":\"value\"\x7d",
       [⟨"wadm_manifests", "default"⟩,
        ⟨"wadm_manifests", "default" ++ "-" ++ "mds"⟩]) :=
  derived_key_second_call.1 (specMock "wadm_manifests") "mds" "wadm_manifests"
    "default" "[\"mds\", \"another-app\"]" "\x7b\"config\":\"value\"\x7d"
    ["mds", "another-app"] (by decide) (by decide) (by decide) (by decide)

/-! ## Unknown extra fields are ignored: supporting lemmas

The decoders read an object only through `getField` at the schema's
keys, so inserting a field under a key outside `schemaKeys`, anywhere in
the document, cannot change a successful decode. -/

theorem getField_insert (pre post : List (String × Json)) (k : String) (v : Json)
    (s : String) (h : k ≠ s) :
    getField (pre ++ (k, v) :: post) s = getField (pre ++ post) s := by
  have hf : ((k, v).1 == s) = false := by simpa using h
  simp [getField, List.filter_append, List.filter_cons, hf]

theorem getField_middle (pre post : List (String × Json)) (key : String)
    (w w' : Json) (s : String) (h : key ≠ s) :
    getField (pre ++ (key, w) :: post) s = getField (pre ++ (key, w') :: post) s := by
  have hf : ((key, w).1 == s) = false := by simpa using h
  have hf' : ((key, w').1 == s) = false := by simpa using h
  simp [getField, List.filter_append, List.filter_cons, hf, hf']

theorem getField_self (pre post : List (String × Json)) (key : String) (w : Json) :
    getField (pre ++ (key, w) :: post) key =
      if ((pre ++ post).filter (fun p => p.1 == key)).isEmpty then .ok (some w)
      else .error ("duplicate field " ++ key) := by
  have hT : ((key, w).1 == key) = true := by simp
  rcases hpre : pre.filter (fun p => p.1 == key) with _ | ⟨a, as⟩ <;>
  rcases hpost : post.filter (fun p => p.1 == key) with _ | ⟨b, bs⟩ <;>
    simp [getField, List.filter_append, List.filter_cons, hT, hpre, hpost]

theorem decodeReq_insert (dec : Json → Except String α)
    (pre post : List (String × Json)) (k : String) (v : Json)
    (s : String) (h : k ≠ s) :
    decodeReq dec (pre ++ (k, v) :: post) s = decodeReq dec (pre ++ post) s := by
  unfold decodeReq
  rw [getField_insert pre post k v s h]

theorem decodeOpt_insert (dec : Json → Except String α)
    (pre post : List (String × Json)) (k : String) (v : Json)
    (s : String) (h : k ≠ s) :
    decodeOpt dec (pre ++ (k, v) :: post) s = decodeOpt dec (pre ++ post) s := by
  unfold decodeOpt
  rw [getField_insert pre post k v s h]

theorem decodeReq_middle (dec : Json → Except String α)
    (pre post : List (String × Json)) (key : String) (w w' : Json)
    (s : String) (h : key ≠ s) :
    decodeReq dec (pre ++ (key, w) :: post) s =
      decodeReq dec (pre ++ (key, w') :: post) s := by
  unfold decodeReq
  rw [getField_middle pre post key w w' s h]

theorem decodeOpt_middle (dec : Json → Except String α)
    (pre post : List (String × Json)) (key : String) (w w' : Json)
    (s : String) (h : key ≠ s) :
    decodeOpt dec (pre ++ (key, w) :: post) s =
      decodeOpt dec (pre ++ (key, w') :: post) s := by
  unfold decodeOpt
  rw [getField_middle pre post key w w' s h]

theorem decodeReq_self_pres (dec : Json → Except String α)
    (pre post : List (String × Json)) (key : String) (w w' : Json)
    (hdec : ∀ a, dec w = .ok a → dec w' = .ok a) :
    ∀ a, decodeReq dec (pre ++ (key, w) :: post) key = .ok a →
         decodeReq dec (pre ++ (key, w') :: post) key = .ok a := by
  intro a h
  unfold decodeReq at h ⊢
  rw [getField_self] at h ⊢
  by_cases hemp : ((pre ++ post).filter (fun p => p.1 == key)).isEmpty
  · simp only [hemp, if_true] at h ⊢
    exact hdec a h
  · simp only [hemp] at h
    simp at h

theorem decodeOpt_self_pres (dec : Json → Except String α)
    (pre post : List (String × Json)) (key : String) (w w' : Json)
    (hw : w.isNull = false) (hw' : w'.isNull = false)
    (hdec : ∀ a, dec w = .ok a → dec w' = .ok a) :
    ∀ r, decodeOpt dec (pre ++ (key, w) :: post) key = .ok r →
         decodeOpt dec (pre ++ (key, w') :: post) key = .ok r := by
  intro r h
  unfold decodeOpt at h ⊢
  rw [getField_self] at h ⊢
  by_cases hemp : ((pre ++ post).filter (fun p => p.1 == key)).isEmpty
  · simp only [hemp, if_true, hw, hw'] at h ⊢
    cases hd : dec w with
    | error e => rw [hd] at h; simp [Except.map] at h
    | ok a =>
      rw [hd] at h
      rw [hdec a hd]
      exact h
  · simp only [hemp] at h
    simp at h

theorem decodeReq_pres (dec : Json → Except String α)
    (pre post : List (String × Json)) (key : String) (w w' : Json)
    (hdec : ∀ a, dec w = .ok a → dec w' = .ok a) (s : String) :
    ∀ a, decodeReq dec (pre ++ (key, w) :: post) s = .ok a →
         decodeReq dec (pre ++ (key, w') :: post) s = .ok a := by
  by_cases hks : key = s
  · subst hks
    exact decodeReq_self_pres dec pre post key w w' hdec
  · intro a h
    rw [← decodeReq_middle dec pre post key w w' s hks]
    exact h

theorem decodeOpt_pres (dec : Json → Except String α)
    (pre post : List (String × Json)) (key : String) (w w' : Json)
    (hw : w.isNull = false) (hw' : w'.isNull = false)
    (hdec : ∀ a, dec w = .ok a → dec w' = .ok a) (s : String) :
    ∀ r, decodeOpt dec (pre ++ (key, w) :: post) s = .ok r →
         decodeOpt dec (pre ++ (key, w') :: post) s = .ok r := by
  by_cases hks : key = s
  · subst hks
    exact decodeOpt_self_pres dec pre post key w w' hw hw' hdec
  · intro r h
    rw [← decodeOpt_middle dec pre post key w w' s hks]
    exact h

theorem configProperties_decode_pres (fields fields' : List (String × Json))
    (h1 : ∀ r, decodeOpt decodeString fields "uri" = .ok r →
               decodeOpt decodeString fields' "uri" = .ok r)
    (h2 : ∀ r, decodeOpt decodeString fields "exchange_name" = .ok r →
               decodeOpt decodeString fields' "exchange_name" = .ok r)
    (h3 : ∀ r, decodeOpt decodeString fields "exchange" = .ok r →
               decodeOpt decodeString fields' "exchange" = .ok r)
    (h4 : ∀ r, decodeOpt decodeString fields "currency" = .ok r →
               decodeOpt decodeString fields' "currency" = .ok r)
    (h5 : ∀ r, decodeOpt decodeString fields "instrument_kind" = .ok r →
               decodeOpt decodeString fields' "instrument_kind" = .ok r) :
    ∀ c, ConfigProperties.decode (.obj fields) = .ok c →
         ConfigProperties.decode (.obj fields') = .ok c := by
  intro c hd
  simp only [ConfigProperties.decode] at hd ⊢
  cases e1 : decodeOpt decodeString fields "uri" with
  | error e => simp only [e1] at hd; cases hd
  | ok u =>
  simp only [e1] at hd
  simp only [h1 u e1]
  cases e2 : decodeOpt decodeString fields "exchange_name" with
  | error e => simp only [e2] at hd; cases hd
  | ok en =>
  simp only [e2] at hd
  simp only [h2 en e2]
  cases e3 : decodeOpt decodeString fields "exchange" with
  | error e => simp only [e3] at hd; cases hd
  | ok ex =>
  simp only [e3] at hd
  simp only [h3 ex e3]
  cases e4 : decodeOpt decodeString fields "currency" with
  | error e => simp only [e4] at hd; cases hd
  | ok cu =>
  simp only [e4] at hd
  simp only [h4 cu e4]
  cases e5 : decodeOpt decodeString fields "instrument_kind" with
  | error e => simp only [e5] at hd; cases hd
  | ok ik =>
  simp only [e5] at hd
  simp only [h5 ik e5]
  exact hd

theorem config_decode_pres (fields fields' : List (String × Json))
    (h1 : ∀ r, decodeReq decodeString fields "name" = .ok r →
               decodeReq decodeString fields' "name" = .ok r)
    (h2 : ∀ r, decodeOpt ConfigProperties.decode fields "properties" = .ok r →
               decodeOpt ConfigProperties.decode fields' "properties" = .ok r) :
    ∀ c, Config.decode (.obj fields) = .ok c →
         Config.decode (.obj fields') = .ok c := by
  intro c hd
  simp only [Config.decode] at hd ⊢
  cases e1 : decodeReq decodeString fields "name" with
  | error e => simp only [e1] at hd; cases hd
  | ok nm =>
  simp only [e1] at hd
  simp only [h1 nm e1]
  cases e2 : decodeOpt ConfigProperties.decode fields "properties" with
  | error e => simp only [e2] at hd; cases hd
  | ok ps =>
  simp only [e2] at hd
  simp only [h2 ps e2]
  exact hd

theorem properties_decode_pres (fields fields' : List (String × Json))
    (h1 : ∀ r, decodeReq decodeString fields "image" = .ok r →
               decodeReq decodeString fields' "image" = .ok r)
    (h2 : ∀ r, decodeOpt (decodeList Config.decode) fields "config" = .ok r →
               decodeOpt (decodeList Config.decode) fields' "config" = .ok r)
    : ∀ c, Properties.decode (.obj fields) = .ok c →
         Properties.decode (.obj fields') = .ok c := by
  intro c hd
  simp only [Properties.decode] at hd ⊢
  cases e1 : decodeReq decodeString fields "image" with
  | error e => simp only [e1] at hd; cases hd
  | ok x1 =>
  simp only [e1] at hd
  simp only [h1 x1 e1]
  cases e2 : decodeOpt (decodeList Config.decode) fields "config" with
  | error e => simp only [e2] at hd; cases hd
  | ok x2 =>
  simp only [e2] at hd
  simp only [h2 x2 e2]
  exact hd

theorem capabilityComponent_decode_pres (fields fields' : List (String × Json))
    (h1 : ∀ r, decodeReq decodeString fields "name" = .ok r →
               decodeReq decodeString fields' "name" = .ok r)
    (h2 : ∀ r, decodeReq decodeString fields "type" = .ok r →
               decodeReq decodeString fields' "type" = .ok r)
    (h3 : ∀ r, decodeOpt Properties.decode fields "properties" = .ok r →
               decodeOpt Properties.decode fields' "properties" = .ok r)
    : ∀ c, CapabilityComponent.decode (.obj fields) = .ok c →
         CapabilityComponent.decode (.obj fields') = .ok c := by
  intro c hd
  simp only [CapabilityComponent.decode] at hd ⊢
  cases e1 : decodeReq decodeString fields "name" with
  | error e => simp only [e1] at hd; cases hd
  | ok x1 =>
  simp only [e1] at hd
  simp only [h1 x1 e1]
  cases e2 : decodeReq decodeString fields "type" with
  | error e => simp only [e2] at hd; cases hd
  | ok x2 =>
  simp only [e2] at hd
  simp only [h2 x2 e2]
  cases e3 : decodeOpt Properties.decode fields "properties" with
  | error e => simp only [e3] at hd; cases hd
  | ok x3 =>
  simp only [e3] at hd
  simp only [h3 x3 e3]
  exact hd

theorem annotations_decode_pres (fields fields' : List (String × Json))
    (h1 : ∀ r, decodeReq decodeString fields "description" = .ok r →
               decodeReq decodeString fields' "description" = .ok r)
    (h2 : ∀ r, decodeReq decodeString fields "version" = .ok r →
               decodeReq decodeString fields' "version" = .ok r)
    : ∀ c, Annotations.decode (.obj fields) = .ok c →
         Annotations.decode (.obj fields') = .ok c := by
  intro c hd
  simp only [Annotations.decode] at hd ⊢
  cases e1 : decodeReq decodeString fields "description" with
  | error e => simp only [e1] at hd; cases hd
  | ok x1 =>
  simp only [e1] at hd
  simp only [h1 x1 e1]
  cases e2 : decodeReq decodeString fields "version" with
  | error e => simp only [e2] at hd; cases hd
  | ok x2 =>
  simp only [e2] at hd
  simp only [h2 x2 e2]
  exact hd

theorem metadata_decode_pres (fields fields' : List (String × Json))
    (h1 : ∀ r, decodeReq decodeString fields "name" = .ok r →
               decodeReq decodeString fields' "name" = .ok r)
    (h2 : ∀ r, decodeReq Annotations.decode fields "annotations" = .ok r →
               decodeReq Annotations.decode fields' "annotations" = .ok r)
    : ∀ c, Metadata.decode (.obj fields) = .ok c →
         Metadata.decode (.obj fields') = .ok c := by
  intro c hd
  simp only [Metadata.decode] at hd ⊢
  cases e1 : decodeReq decodeString fields "name" with
  | error e => simp only [e1] at hd; cases hd
  | ok x1 =>
  simp only [e1] at hd
  simp only [h1 x1 e1]
  cases e2 : decodeReq Annotations.decode fields "annotations" with
  | error e => simp only [e2] at hd; cases hd
  | ok x2 =>
  simp only [e2] at hd
  simp only [h2 x2 e2]
  exact hd

theorem spec_decode_pres (fields fields' : List (String × Json))
    (h1 : ∀ r, decodeReq (decodeList CapabilityComponent.decode) fields "components" = .ok r →
               decodeReq (decodeList CapabilityComponent.decode) fields' "components" = .ok r)
    : ∀ c, Spec.decode (.obj fields) = .ok c →
         Spec.decode (.obj fields') = .ok c := by
  intro c hd
  simp only [Spec.decode] at hd ⊢
  cases e1 : decodeReq (decodeList CapabilityComponent.decode) fields "components" with
  | error e => simp only [e1] at hd; cases hd
  | ok x1 =>
  simp only [e1] at hd
  simp only [h1 x1 e1]
  exact hd

theorem manifest_decode_pres (fields fields' : List (String × Json))
    (h1 : ∀ r, decodeReq decodeString fields "apiVersion" = .ok r →
               decodeReq decodeString fields' "apiVersion" = .ok r)
    (h2 : ∀ r, decodeReq decodeString fields "kind" = .ok r →
               decodeReq decodeString fields' "kind" = .ok r)
    (h3 : ∀ r, decodeReq Metadata.decode fields "metadata" = .ok r →
               decodeReq Metadata.decode fields' "metadata" = .ok r)
    (h4 : ∀ r, decodeReq Spec.decode fields "spec" = .ok r →
               decodeReq Spec.decode fields' "spec" = .ok r)
    : ∀ c, Manifest.decode (.obj fields) = .ok c →
         Manifest.decode (.obj fields') = .ok c := by
  intro c hd
  simp only [Manifest.decode] at hd ⊢
  cases e1 : decodeReq decodeString fields "apiVersion" with
  | error e => simp only [e1] at hd; cases hd
  | ok x1 =>
  simp only [e1] at hd
  simp only [h1 x1 e1]
  cases e2 : decodeReq decodeString fields "kind" with
  | error e => simp only [e2] at hd; cases hd
  | ok x2 =>
  simp only [e2] at hd
  simp only [h2 x2 e2]
  cases e3 : decodeReq Metadata.decode fields "metadata" with
  | error e => simp only [e3] at hd; cases hd
  | ok x3 =>
  simp only [e3] at hd
  simp only [h3 x3 e3]
  cases e4 : decodeReq Spec.decode fields "spec" with
  | error e => simp only [e4] at hd; cases hd
  | ok x4 =>
  simp only [e4] at hd
  simp only [h4 x4 e4]
  exact hd

theorem manifests_decode_pres (fields fields' : List (String × Json))
    (h1 : ∀ r, decodeReq Manifest.decode fields "v0.0.1" = .ok r →
               decodeReq Manifest.decode fields' "v0.0.1" = .ok r)
    : ∀ c, Manifests.decode (.obj fields) = .ok c →
         Manifests.decode (.obj fields') = .ok c := by
  intro c hd
  simp only [Manifests.decode] at hd ⊢
  cases e1 : decodeReq Manifest.decode fields "v0.0.1" with
  | error e => simp only [e1] at hd; cases hd
  | ok x1 =>
  simp only [e1] at hd
  simp only [h1 x1 e1]
  exact hd

theorem root_decode_pres (fields fields' : List (String × Json))
    (h1 : ∀ r, decodeReq Manifests.decode fields "manifests" = .ok r →
               decodeReq Manifests.decode fields' "manifests" = .ok r)
    (h2 : ∀ r, decodeOpt decodeString fields "deployed_version" = .ok r →
               decodeOpt decodeString fields' "deployed_version" = .ok r)
    : ∀ c, Root.decode (.obj fields) = .ok c →
         Root.decode (.obj fields') = .ok c := by
  intro c hd
  simp only [Root.decode] at hd ⊢
  cases e1 : decodeReq Manifests.decode fields "manifests" with
  | error e => simp only [e1] at hd; cases hd
  | ok x1 =>
  simp only [e1] at hd
  simp only [h1 x1 e1]
  cases e2 : decodeOpt decodeString fields "deployed_version" with
  | error e => simp only [e2] at hd; cases hd
  | ok x2 =>
  simp only [e2] at hd
  simp only [h2 x2 e2]
  exact hd

theorem configProperties_decode_arr (l : List Json) :
    ConfigProperties.decode (.arr l) = .error "invalid type: expected struct ConfigProperties" := rfl

theorem config_decode_arr (l : List Json) :
    Config.decode (.arr l) = .error "invalid type: expected struct Config" := rfl

theorem properties_decode_arr (l : List Json) :
    Properties.decode (.arr l) = .error "invalid type: expected struct Properties" := rfl

theorem capabilityComponent_decode_arr (l : List Json) :
    CapabilityComponent.decode (.arr l) = .error "invalid type: expected struct CapabilityComponent" := rfl

theorem annotations_decode_arr (l : List Json) :
    Annotations.decode (.arr l) = .error "invalid type: expected struct Annotations" := rfl

theorem metadata_decode_arr (l : List Json) :
    Metadata.decode (.arr l) = .error "invalid type: expected struct Metadata" := rfl

theorem spec_decode_arr (l : List Json) :
    Spec.decode (.arr l) = .error "invalid type: expected struct Spec" := rfl

theorem manifest_decode_arr (l : List Json) :
    Manifest.decode (.arr l) = .error "invalid type: expected struct Manifest" := rfl

theorem manifests_decode_arr (l : List Json) :
    Manifests.decode (.arr l) = .error "invalid type: expected struct Manifests" := rfl

theorem root_decode_arr (l : List Json) :
    Root.decode (.arr l) = .error "invalid type: expected struct Root" := rfl

theorem decodeList_obj (dec : Json → Except String α) (fields : List (String × Json)) :
    decodeList dec (.obj fields) = .error "invalid type: expected a sequence" := rfl

theorem InsertField.isNull_false {k : String} {v w w' : Json}
    (h : InsertField k v w w') : w.isNull = false ∧ w'.isNull = false := by
  cases h <;> exact ⟨rfl, rfl⟩

theorem InsertField.decodeString_not_ok {k : String} {v w w' : Json}
    (h : InsertField k v w w') : ∀ s, decodeString w ≠ .ok s := by
  cases h <;> simp [decodeString]

theorem decodeListAux_pres (dec : Json → Except String α)
    (pre post : List Json) (w w' : Json)
    (hw : ∀ a, dec w = .ok a → dec w' = .ok a) :
    ∀ l, decodeListAux dec (pre ++ w :: post) = .ok l →
         decodeListAux dec (pre ++ w' :: post) = .ok l := by
  induction pre with
  | nil =>
    intro l h
    simp only [List.nil_append] at h ⊢
    cases hd : dec w with
    | error e => simp only [decodeListAux, hd] at h; cases h
    | ok a =>
      simp only [decodeListAux, hd] at h
      cases ht : decodeListAux dec post with
      | error e => simp only [ht] at h; cases h
      | ok as =>
        simp only [ht] at h
        simp only [decodeListAux, hw a hd, ht]
        exact h
  | cons x xs ih =>
    intro l h
    simp only [List.cons_append] at h ⊢
    cases hd : dec x with
    | error e => simp only [decodeListAux, hd] at h; cases h
    | ok a =>
      simp only [decodeListAux, hd] at h
      cases ht : decodeListAux dec (xs ++ w :: post) with
      | error e => simp only [ht] at h; cases h
      | ok as =>
        simp only [ht] at h
        simp only [decodeListAux, hd, ih as ht]
        exact h

/-- Inserting one field under a key outside `schemaKeys` at any object
position of the document preserves the success of every schema decoder. -/
theorem insert_preservesAll (k : String) (v : Json) (hk : k ∉ schemaKeys) :
    ∀ j j', InsertField k v j j' → PreservesAll j j' := by
  intro j j' h
  induction h with
  | here pre post =>
    have hne : ∀ s, s ∈ schemaKeys → k ≠ s := fun s hs he => hk (he ▸ hs)
    have insReq : ∀ {α : Type} (dec : Json → Except String α) (s : String),
        s ∈ schemaKeys →
        ∀ r, decodeReq dec (pre ++ post) s = .ok r →
             decodeReq dec (pre ++ (k, v) :: post) s = .ok r := by
      intro α dec s hs r hr
      rw [decodeReq_insert dec pre post k v s (hne s hs)]
      exact hr
    have insOpt : ∀ {α : Type} (dec : Json → Except String α) (s : String),
        s ∈ schemaKeys →
        ∀ r, decodeOpt dec (pre ++ post) s = .ok r →
             decodeOpt dec (pre ++ (k, v) :: post) s = .ok r := by
      intro α dec s hs r hr
      rw [decodeOpt_insert dec pre post k v s (hne s hs)]
      exact hr
    refine ⟨?_, ?_, ?_, ?_, ?_, ?_, ?_, ?_, ?_, ?_, ?_, ?_⟩
    · exact configProperties_decode_pres _ _
        (insOpt decodeString "uri" (by decide))
        (insOpt decodeString "exchange_name" (by decide))
        (insOpt decodeString "exchange" (by decide))
        (insOpt decodeString "currency" (by decide))
        (insOpt decodeString "instrument_kind" (by decide))
    · exact config_decode_pres _ _
        (insReq decodeString "name" (by decide))
        (insOpt ConfigProperties.decode "properties" (by decide))
    · intro a ha; rw [decodeList_obj] at ha; cases ha
    · exact properties_decode_pres _ _
        (insReq decodeString "image" (by decide))
        (insOpt (decodeList Config.decode) "config" (by decide))
    · exact capabilityComponent_decode_pres _ _
        (insReq decodeString "name" (by decide))
        (insReq decodeString "type" (by decide))
        (insOpt Properties.decode "properties" (by decide))
    · intro a ha; rw [decodeList_obj] at ha; cases ha
    · exact annotations_decode_pres _ _
        (insReq decodeString "description" (by decide))
        (insReq decodeString "version" (by decide))
    · exact metadata_decode_pres _ _
        (insReq decodeString "name" (by decide))
        (insReq Annotations.decode "annotations" (by decide))
    · exact spec_decode_pres _ _
        (insReq (decodeList CapabilityComponent.decode) "components" (by decide))
    · exact manifest_decode_pres _ _
        (insReq decodeString "apiVersion" (by decide))
        (insReq decodeString "kind" (by decide))
        (insReq Metadata.decode "metadata" (by decide))
        (insReq Spec.decode "spec" (by decide))
    · exact manifests_decode_pres _ _
        (insReq Manifest.decode "v0.0.1" (by decide))
    · exact root_decode_pres _ _
        (insReq Manifests.decode "manifests" (by decide))
        (insOpt decodeString "deployed_version" (by decide))
  | inObj pre post key w w' hww ih =>
    obtain ⟨ihCP, ihCfg, ihCfgL, ihPr, ihCo, ihCoL, ihAn, ihMe, ihSp, ihMa,
            ihMs, ihRt⟩ := ih
    obtain ⟨hwn, hw'n⟩ := InsertField.isNull_false hww
    have hstr : ∀ a, decodeString w = .ok a → decodeString w' = .ok a :=
      fun a ha => absurd ha (InsertField.decodeString_not_ok hww a)
    refine ⟨?_, ?_, ?_, ?_, ?_, ?_, ?_, ?_, ?_, ?_, ?_, ?_⟩
    · exact configProperties_decode_pres _ _
        (decodeOpt_pres decodeString pre post key w w' hwn hw'n hstr "uri")
        (decodeOpt_pres decodeString pre post key w w' hwn hw'n hstr "exchange_name")
        (decodeOpt_pres decodeString pre post key w w' hwn hw'n hstr "exchange")
        (decodeOpt_pres decodeString pre post key w w' hwn hw'n hstr "currency")
        (decodeOpt_pres decodeString pre post key w w' hwn hw'n hstr "instrument_kind")
    · exact config_decode_pres _ _
        (decodeReq_pres decodeString pre post key w w' hstr "name")
        (decodeOpt_pres ConfigProperties.decode pre post key w w' hwn hw'n ihCP
          "properties")
    · intro a ha; rw [decodeList_obj] at ha; cases ha
    · exact properties_decode_pres _ _
        (decodeReq_pres decodeString pre post key w w' hstr "image")
        (decodeOpt_pres (decodeList Config.decode) pre post key w w' hwn hw'n
          ihCfgL "config")
    · exact capabilityComponent_decode_pres _ _
        (decodeReq_pres decodeString pre post key w w' hstr "name")
        (decodeReq_pres decodeString pre post key w w' hstr "type")
        (decodeOpt_pres Properties.decode pre post key w w' hwn hw'n ihPr
          "properties")
    · intro a ha; rw [decodeList_obj] at ha; cases ha
    · exact annotations_decode_pres _ _
        (decodeReq_pres decodeString pre post key w w' hstr "description")
        (decodeReq_pres decodeString pre post key w w' hstr "version")
    · exact metadata_decode_pres _ _
        (decodeReq_pres decodeString pre post key w w' hstr "name")
        (decodeReq_pres Annotations.decode pre post key w w' ihAn "annotations")
    · exact spec_decode_pres _ _
        (decodeReq_pres (decodeList CapabilityComponent.decode) pre post key w w'
          ihCoL "components")
    · exact manifest_decode_pres _ _
        (decodeReq_pres decodeString pre post key w w' hstr "apiVersion")
        (decodeReq_pres decodeString pre post key w w' hstr "kind")
        (decodeReq_pres Metadata.decode pre post key w w' ihMe "metadata")
        (decodeReq_pres Spec.decode pre post key w w' ihSp "spec")
    · exact manifests_decode_pres _ _
        (decodeReq_pres Manifest.decode pre post key w w' ihMa "v0.0.1")
    · exact root_decode_pres _ _
        (decodeReq_pres Manifests.decode pre post key w w' ihMs "manifests")
        (decodeOpt_pres decodeString pre post key w w' hwn hw'n hstr
          "deployed_version")
  | inArr pre post w w' hww ih =>
    obtain ⟨ihCP, ihCfg, ihCfgL, ihPr, ihCo, ihCoL, ihAn, ihMe, ihSp, ihMa,
            ihMs, ihRt⟩ := ih
    refine ⟨?_, ?_, ?_, ?_, ?_, ?_, ?_, ?_, ?_, ?_, ?_, ?_⟩
    · intro a ha; rw [configProperties_decode_arr] at ha; cases ha
    · intro a ha; rw [config_decode_arr] at ha; cases ha
    · intro l hl
      simp only [decodeList] at hl ⊢
      exact decodeListAux_pres Config.decode pre post w w' ihCfg l hl
    · intro a ha; rw [properties_decode_arr] at ha; cases ha
    · intro a ha; rw [capabilityComponent_decode_arr] at ha; cases ha
    · intro l hl
      simp only [decodeList] at hl ⊢
      exact decodeListAux_pres CapabilityComponent.decode pre post w w' ihCo l hl
    · intro a ha; rw [annotations_decode_arr] at ha; cases ha
    · intro a ha; rw [metadata_decode_arr] at ha; cases ha
    · intro a ha; rw [spec_decode_arr] at ha; cases ha
    · intro a ha; rw [manifest_decode_arr] at ha; cases ha
    · intro a ha; rw [manifests_decode_arr] at ha; cases ha
    · intro a ha; rw [root_decode_arr] at ha; cases ha

/-- C8: keys not part of the schema are ignored during decoding: adding
an extra field whose key is outside `schemaKeys` to any object of a
document that decodes successfully still decodes successfully, to the
same `Root` value. -/
theorem unknown_extra_field_ignored (k : String) (v : Json) (j j' : Json)
    (root : Root) (hk : k ∉ schemaKeys) (hins : InsertField k v j j')
    (h : Root.decode j = .ok root) :
    Root.decode j' = .ok root :=
  (insert_preservesAll k v hk j j' hins).2.2.2.2.2.2.2.2.2.2.2 root h

/-- Witness for C8: adding an `"extra"` field to the top-level object of
the minimal document leaves the decoded `Root` unchanged. -/
theorem unknown_extra_field_ignored_witness :
    Root.decode (.obj [("manifests", .obj [("v0.0.1", minimalManifestJson)]),
                       ("extra", .bool true)]) = .ok minimalRoot :=
  unknown_extra_field_ignored "extra" (.bool true)
    (.obj [("manifests", .obj [("v0.0.1", minimalManifestJson)])])
    (.obj [("manifests", .obj [("v0.0.1", minimalManifestJson)]),
           ("extra", .bool true)])
    minimalRoot (by decide)
    (InsertField.here [("manifests", .obj [("v0.0.1", minimalManifestJson)])] [])
    (by decide)

end Manifestor
